import Mathlib

/-!
Verification of the kixdns DNS forwarder's wire codec and prefetch manager.

Bytes are modelled as natural numbers reduced modulo 256 at each read;
64-bit hash state is a natural number reduced modulo 2^64; byte buffers and
DNS packets are lists of naturals.  Fallible parsers return Option.
-/

namespace KixDNS

/-- Read one byte of a packet; out-of-range reads yield 0 (the Rust code only
reads after a bounds check, so this default is never observable there). -/
def byte (packet : List Nat) (i : Nat) : Nat := packet.getD i 0 % 256

/-- Big-endian 16-bit read, as in u16::from_be_bytes([packet[i], packet[i+1]]). -/
def read16 (packet : List Nat) (i : Nat) : Nat := byte packet i * 256 + byte packet (i + 1)

/-- Big-endian 32-bit read, as in u32::from_be_bytes on four consecutive bytes. -/
def read32 (packet : List Nat) (i : Nat) : Nat :=
  ((byte packet i * 256 + byte packet (i + 1)) * 256 + byte packet (i + 2)) * 256
    + byte packet (i + 3)

/-- u8::to_ascii_lowercase: add 32 to ASCII uppercase letters. -/
def toLowerByte (b : Nat) : Nat := if 65 ≤ b ∧ b ≤ 90 then b + 32 else b

/-! ## FxHasher model

The source hashes with rustc-hash's FxHasher.  We model its state transition
concretely: state is a 64-bit word, each written word w updates the state by
state := (rotate_left(state, 5) xor w) * SEED mod 2^64.  Byte-slice writes are
chunked little-endian (8, then 4, then 2, then 1 bytes); the Hash impl for str
writes the bytes followed by a 0xff terminator byte.  None of the verified
claims depend on these internals, only on which byte stream is fed in. -/

def U64 : Nat := 18446744073709551616

def fxSeed : Nat := 5871781006564002453

/-- Rotate a 64-bit word left by 5 bits. -/
def rotl5 (h : Nat) : Nat := (h % U64 * 32) % U64 + h % U64 / 576460752303423488

/-- FxHasher::add_to_hash. -/
def addToHash (h i : Nat) : Nat := ((rotl5 h ^^^ i % U64) * fxSeed) % U64

/-- Hasher::write_u8 on FxHasher. -/
def fxWriteU8 (h b : Nat) : Nat := addToHash h (b % 256)

/-- Hasher::write_u16 on FxHasher. -/
def fxWriteU16 (h v : Nat) : Nat := addToHash h (v % 65536)

/-- Little-endian value of a byte list (usize::from_ne_bytes on x86-64). -/
def leChunk (bs : List Nat) : Nat := bs.foldr (fun b acc => b % 256 + 256 * acc) 0

/-- The while-loop of FxHasher::write consuming full 8-byte chunks. -/
def fxWriteChunks : Nat → List Nat → Nat × List Nat
  | h, b0 :: b1 :: b2 :: b3 :: b4 :: b5 :: b6 :: b7 :: rest =>
    fxWriteChunks (addToHash h (leChunk [b0, b1, b2, b3, b4, b5, b6, b7])) rest
  | h, bs => (h, bs)

/-- Hasher::write on FxHasher: 8-byte chunks, then a 4-, 2- and 1-byte tail. -/
def fxWrite (h0 : Nat) (bs0 : List Nat) : Nat :=
  let p1 := fxWriteChunks h0 bs0
  let p2 := if 4 ≤ p1.2.length then (addToHash p1.1 (leChunk (p1.2.take 4)), p1.2.drop 4) else p1
  let p3 := if 2 ≤ p2.2.length then (addToHash p2.1 (leChunk (p2.2.take 2)), p2.2.drop 2) else p2
  if 1 ≤ p3.2.length then addToHash p3.1 (p3.2.headD 0 % 256) else p3.1

/-- Hash for str on FxHasher: write the bytes, then write_u8(0xff). -/
def fxHashStr (h : Nat) (s : List Nat) : Nat := fxWriteU8 (fxWrite h s) 255

/-- PrefetchManager::calculate_cache_hash: hash the pipeline id as a str, feed
each qname byte ASCII-lowercased via write_u8, then hash the qtype as u16. -/
def calculate_cache_hash (pipeline_id qname : List Nat) (qtype : Nat) : Nat :=
  let h1 := fxHashStr 0 pipeline_id
  let h2 := qname.foldl (fun h b => fxWriteU8 h (toLowerByte b)) h1
  fxWriteU16 h2 qtype

/-- PrefetchManager::cdn_relation_key: hash pipeline id and upstream as str,
then feed each primary-domain byte ASCII-lowercased via write_u8. -/
def cdn_relation_key (pipeline_id upstream primary : List Nat) : Nat :=
  let h1 := fxHashStr 0 pipeline_id
  let h2 := fxHashStr h1 upstream
  primary.foldl (fun h b => fxWriteU8 h (toLowerByte b)) h2

/-! ## TXID patching (main.rs) -/

/-- set_transaction_id: overwrite the first two bytes with the big-endian
encoding of tx_id when the packet has at least 2 bytes, else do nothing. -/
def set_transaction_id (packet : List Nat) (tx_id : Nat) : List Nat :=
  if 2 ≤ packet.length then
    (packet.set 0 (tx_id / 256 % 256)).set 1 (tx_id % 256)
  else packet

/-- The UDP send buffer built in run_udp_worker's CacheHit branch: the cleared
send buffer is extended with a copy of the cached bytes and then patched with
set_transaction_id. -/
def cacheHitSendBuffer (cached : List Nat) (tx_id : Nat) : List Nat :=
  set_transaction_id cached tx_id

/-! ## Quick query parse (proto_utils.rs) -/

/-- Result of parse_quick.  qname holds the normalized (ASCII-lowercased,
dot-separated) name bytes written into the caller's scratch buffer. -/
structure QuickQuery where
  tx_id : Nat
  qname : List Nat
  qtype : Nat
  qclass : Nat
  edns_present : Bool
deriving Repr, DecidableEq

/-- Maximum number of compression pointer jumps allowed (proto_utils.rs). -/
def MAX_COMPRESSION_JUMPS : Nat := 5

/-- The qname loop of parse_quick.  State: current read position, the resume
position pos (frozen at the first jump), whether a jump happened, the
remaining jump budget, and the bytes accumulated so far (the scratch buffer,
whose capacity is bufSize).  Returns the resume position after the name and
the normalized name bytes.  The needs_lowercase fast path of the source is
semantically the identity, so every label byte is mapped through
toLowerByte. -/
def parseQNameAux (packet : List Nat) (bufSize : Nat) (currentPos pos : Nat)
    (jumped : Bool) (maxJumps : Nat) (buf : List Nat) : Option (Nat × List Nat) :=
  if _hpos : currentPos < packet.length then
    let len := byte packet currentPos
    if len = 0 then
      some (if jumped then pos else currentPos + 1, buf)
    else if len &&& 192 = 192 then
      if packet.length < currentPos + 2 then none
      else
        let pos1 := if jumped then pos else currentPos + 2
        let offset := (len &&& 63) * 256 + byte packet (currentPos + 1)
        if _hj : maxJumps - 1 = 0 then none
        else parseQNameAux packet bufSize offset pos1 true (maxJumps - 1) buf
    else
      let labelLen := len
      let cp := currentPos + 1
      if _hb : packet.length < cp + labelLen then none
      else
        let dotStep : Option (List Nat) :=
          if buf.length > 0 then
            if bufSize ≤ buf.length then none else some (buf ++ [46])
          else some buf
        match dotStep with
        | none => none
        | some buf1 =>
          if bufSize < buf1.length + labelLen then none
          else
            let labelBytes := (List.range labelLen).map fun i => toLowerByte (byte packet (cp + i))
            parseQNameAux packet bufSize (cp + labelLen) pos jumped maxJumps (buf1 ++ labelBytes)
  else none
termination_by (maxJumps, packet.length - currentPos)
decreasing_by
  · apply Prod.Lex.left
    omega
  · apply Prod.Lex.right
    simp [byte] at *
    omega

/-- skip_name's recursive core, with the jump budget explicit. -/
def skipNameAux (packet : List Nat) (pos maxJumps : Nat) : Option Nat :=
  if _hpos : pos < packet.length then
    let len := byte packet pos
    if len = 0 then some (pos + 1)
    else if len &&& 192 = 192 then
      if packet.length < pos + 2 then none
      else if _hj : maxJumps - 1 = 0 then none
      else
        let offset := (len &&& 63) * 256 + byte packet (pos + 1)
        if _ho : packet.length ≤ offset then none
        else skipNameAux packet offset (maxJumps - 1)
    else
      let newPos := pos + 1 + len
      if _hb : packet.length < newPos then none
      else skipNameAux packet newPos maxJumps
  else none
termination_by (maxJumps, packet.length - pos)
decreasing_by
  · apply Prod.Lex.left
    omega
  · apply Prod.Lex.right
    simp [byte] at *
    omega

/-- proto_utils.rs skip_name: skip a DNS name following compression pointers
with the MAX_COMPRESSION_JUMPS budget, returning the next position. -/
def skip_name (packet : List Nat) (pos : Nat) : Option Nat :=
  skipNameAux packet pos MAX_COMPRESSION_JUMPS

/-- The EDNS scan of parse_quick: walk up to arCount additional records
starting at arPos, reporting true when a record of type 41 (OPT) is found.
Every break of the source loop returns the accumulated flag (false unless the
OPT record was just seen). -/
def scanEdns (packet : List Nat) (arPos : Nat) (count : Nat) : Bool :=
  match count with
  | 0 => false
  | n + 1 =>
    if packet.length ≤ arPos then false
    else
      let nameByte := byte packet arPos
      let nextPos := if nameByte = 0 then arPos + 1 else (skip_name packet arPos).getD packet.length
      if packet.length < nextPos + 10 then false
      else
        let rrType := read16 packet nextPos
        if rrType = 41 then true
        else
          let rdLen := read16 packet (nextPos + 8)
          if packet.length < 10 + rdLen then false
          else if packet.length - 10 - rdLen < nextPos then false
          else scanEdns packet (nextPos + 10 + rdLen) n

/-- proto_utils.rs parse_quick: parse the DNS header and first question,
normalizing the qname into a scratch buffer of capacity bufSize. -/
def parse_quick (packet : List Nat) (bufSize : Nat) : Option QuickQuery :=
  if packet.length < 12 then none
  else
    let tx_id := read16 packet 0
    let qd_count := read16 packet 4
    let an_count := read16 packet 6
    let ns_count := read16 packet 8
    let ar_count := read16 packet 10
    if qd_count = 0 then none
    else
      match parseQNameAux packet bufSize 12 12 false 5 [] with
      | none => none
      | some (pos, qnameBuf) =>
        if packet.length < pos + 4 then none
        else
          let qtype := read16 packet pos
          let qclass := read16 packet (pos + 2)
          let edns_present :=
            if 0 < ar_count ∧ an_count = 0 ∧ ns_count = 0 then
              scanEdns packet (pos + 4) ar_count
            else false
          some ⟨tx_id, qnameBuf, qtype, qclass, edns_present⟩

/-! ## Quick response parse (proto_utils.rs) -/

/-- Result of parse_response_quick.  rcode is modelled as the numeric low
4 bits of byte 3 (ResponseCode::from(0, rcode_u8) with high part 0). -/
structure QuickResponse where
  rcode : Nat
  min_ttl : Nat
  truncated : Bool
deriving Repr, DecidableEq

/-- u32::MAX, the initial minimum-TTL accumulator of parse_response_quick. -/
def U32MAX : Nat := 4294967295

/-- The inline name skip of parse_response_quick: labels are stepped over and
a compression pointer terminates the name after two bytes (pointers are not
followed here). -/
def skipNameInline (packet : List Nat) (pos : Nat) : Option Nat :=
  if _hpos : pos < packet.length then
    let len := byte packet pos
    if len = 0 then some (pos + 1)
    else if len &&& 192 = 192 then
      if packet.length < pos + 2 then none else some (pos + 2)
    else
      let jumpLen := 1 + len
      if _hb : packet.length < pos + jumpLen then none
      else skipNameInline packet (pos + jumpLen)
  else none
termination_by packet.length - pos
decreasing_by simp [byte] at *; omega

/-- The question-skipping loop of parse_response_quick: skip count questions
(name, then 4 bytes of type and class) starting at pos. -/
def skipQuestions (packet : List Nat) (pos : Nat) (count : Nat) : Option Nat :=
  match count with
  | 0 => some pos
  | n + 1 =>
    match skipNameInline packet pos with
    | none => none
    | some p =>
      if packet.length < p + 4 then none
      else skipQuestions packet (p + 4) n

/-- The answer-scanning loop of parse_response_quick: fold the minimum TTL
over count answer records starting at pos. -/
def scanAnswers (packet : List Nat) (pos : Nat) (minTtl : Nat) (count : Nat) : Option Nat :=
  match count with
  | 0 => some minTtl
  | n + 1 =>
    match skipNameInline packet pos with
    | none => none
    | some p =>
      if packet.length < p + 10 then none
      else
        let ttl := read32 packet (p + 4)
        let minTtl1 := if ttl < minTtl then ttl else minTtl
        let rdLen := read16 packet (p + 8)
        scanAnswers packet (p + 10 + rdLen) minTtl1 n

/-- Specification-side companion of scanAnswers: the list of TTL fields of the
count answer records starting at pos, walked exactly like scanAnswers. -/
def answerTTLs (packet : List Nat) (pos : Nat) (count : Nat) : Option (List Nat) :=
  match count with
  | 0 => some []
  | n + 1 =>
    match skipNameInline packet pos with
    | none => none
    | some p =>
      if packet.length < p + 10 then none
      else
        let ttl := read32 packet (p + 4)
        let rdLen := read16 packet (p + 8)
        match answerTTLs packet (p + 10 + rdLen) n with
        | none => none
        | some rest => some (ttl :: rest)

/-- proto_utils.rs parse_response_quick: extract RCODE, the TC flag and the
minimum answer TTL (0 when ancount = 0, and the u32::MAX accumulator is
collapsed to 0 at the end). -/
def parse_response_quick (packet : List Nat) : Option QuickResponse :=
  if packet.length < 12 then none
  else
    let truncated := byte packet 2 &&& 2 ≠ 0
    let rcode := byte packet 3 &&& 15
    let qd_count := read16 packet 4
    let an_count := read16 packet 6
    if an_count = 0 then some ⟨rcode, 0, truncated⟩
    else
      match skipQuestions packet 12 qd_count with
      | none => none
      | some pos =>
        match scanAnswers packet pos U32MAX an_count with
        | none => none
        | some m =>
          some ⟨rcode, if m = U32MAX then 0 else m, truncated⟩

/-! ## Prefetch manager (prefetch.rs)

Domains, pipeline ids and upstream identities are byte strings (List Nat).
The moka CDN-relation cache and the last-prefetch DashMap are modelled as
functions from the 64-bit key to an optional value; the tokio semaphore is
the count of currently available permits; Instant is a natural number. -/

structure PrefetchConfig where
  enabled : Bool
  hot_threshold : Nat
  concurrency : Nat
  min_interval : Nat
  ipv6_on_ipv4_enabled : Bool
  cdn_prefetch_enabled : Bool
deriving Repr, DecidableEq

/-- PrefetchConfig::default(). -/
def PrefetchConfig.default : PrefetchConfig :=
  ⟨true, 10, 5, 30, true, true⟩

/-- qtype value of RecordType::A. -/
def qtypeA : Nat := 1

/-- qtype value of RecordType::AAAA. -/
def qtypeAAAA : Nat := 28

structure PrefetchJob where
  pipeline_id : List Nat
  qname : List Nat
  qtype : Nat
  upstream : List Nat
deriving Repr, DecidableEq

/-- PrefetchManager::job_hash: hash pipeline id, qname and upstream as str
and the qtype as u16, in declaration order. -/
def job_hash (job : PrefetchJob) : Nat :=
  let h1 := fxHashStr 0 job.pipeline_id
  let h2 := fxHashStr h1 job.qname
  let h3 := fxWriteU16 h2 job.qtype
  fxHashStr h3 job.upstream

/-- The mutable state of a PrefetchManager that try_prepare_job touches:
the last_prefetch map and the semaphore's available permit count. -/
structure PrefetchState where
  last_prefetch : Nat → Option Nat
  available_permits : Nat

/-- The state PrefetchManager::new establishes: empty last_prefetch map and a
semaphore of size config.concurrency.max(1). -/
def PrefetchManager.newState (config : PrefetchConfig) : PrefetchState :=
  { last_prefetch := fun _ => none
    available_permits := max config.concurrency 1 }

/-- PrefetchManager::try_prepare_job at instant now: returns whether a permit
was acquired, and the successor state.  Disabled prefetch and a too-recent
last_prefetch timestamp leave the state unchanged; otherwise now is recorded
and the semaphore is tried, the recorded entry being removed again when no
permit is available. -/
def try_prepare_job (config : PrefetchConfig) (st : PrefetchState) (job : PrefetchJob)
    (now : Nat) : Option Unit × PrefetchState :=
  if ¬config.enabled then (none, st)
  else
    let hash := job_hash job
    let debounced : Bool :=
      match st.last_prefetch hash with
      | some last => decide (now - last < config.min_interval)
      | none => false
    if debounced then (none, st)
    else
      let recorded : PrefetchState :=
        { st with last_prefetch := fun k => if k = hash then some now else st.last_prefetch k }
      if 0 < st.available_permits then
        (some (), { recorded with available_permits := st.available_permits - 1 })
      else
        (none, { recorded with last_prefetch := fun k =>
                  if k = hash then none else recorded.last_prefetch k })

/-- PrefetchManager::lookup_cdn_relations (the counters are telemetry only and
are not modelled): read the CDN relation cache at the derived key. -/
def lookup_cdn_relations (relations : Nat → Option (List (List Nat)))
    (pipeline_id upstream primary : List Nat) : Option (List (List Nat)) :=
  relations (cdn_relation_key pipeline_id upstream primary)

/-- PrefetchManager::related_jobs: an AAAA job for the same qname when
IPv6-on-IPv4 is enabled and the original qtype is A, followed by one job per
cached CDN-related domain when CDN prefetch is enabled; empty when prefetch
is disabled. -/
def related_jobs (config : PrefetchConfig) (relations : Nat → Option (List (List Nat)))
    (pipeline_id qname : List Nat) (original_qtype : Nat) (upstream : List Nat) :
    List PrefetchJob :=
  if ¬config.enabled then []
  else
    let ipv6Jobs :=
      if config.ipv6_on_ipv4_enabled ∧ original_qtype = qtypeA then
        [⟨pipeline_id, qname, qtypeAAAA, upstream⟩]
      else []
    let cdnJobs :=
      if config.cdn_prefetch_enabled then
        match lookup_cdn_relations relations pipeline_id upstream qname with
        | some related => related.map fun d => ⟨pipeline_id, d, original_qtype, upstream⟩
        | none => []
      else []
    ipv6Jobs ++ cdnJobs

/-! ## CDN relation learning (prefetch.rs) -/

def CNAME_CHAIN_LIMIT : Nat := 8

def CNAME_RELATION_LIMIT : Nat := 32

/-- str::trim_end_matches with a dot pattern: drop every trailing 0x2e byte. -/
def trimTrailingDots (s : List Nat) : List Nat :=
  (s.reverse.dropWhile (fun b => b = 46)).reverse

/-- PrefetchManager::normalize_domain_str: trim trailing dots, then
ASCII-lowercase. -/
def normalize_domain_str (domain : List Nat) : List Nat :=
  (trimTrailingDots domain).map toLowerByte

/-- The record data of an answer, as register_cdn_relations_from_message sees
it: a CNAME with its target name, or anything else. -/
inductive AnswerData where
  | cname (target : List Nat)
  | other
deriving Repr, DecidableEq

/-- One answer record: owner name plus data.  Name::to_utf8 is the textual
form of the name, so normalize_dns_name is normalize_domain_str on it. -/
structure AnswerRecord where
  name : List Nat
  data : AnswerData
deriving Repr, DecidableEq

/-- The CNAME graph as an association list owner to target list, preserving
insertion order per owner (HashMap entry().or_default().push). -/
def graphInsert (g : List (List Nat × List (List Nat))) (owner target : List Nat) :
    List (List Nat × List (List Nat)) :=
  match g with
  | [] => [(owner, [target])]
  | (k, v) :: rest =>
    if k = owner then (k, v ++ [target]) :: rest
    else (k, v) :: graphInsert rest owner target

/-- Lookup in the CNAME graph. -/
def graphGet (g : List (List Nat × List (List Nat))) (k : List Nat) :
    Option (List (List Nat)) :=
  match g with
  | [] => none
  | (k1, v) :: rest => if k1 = k then some v else graphGet rest k

/-- The graph-building loop of register_cdn_relations_from_message: for every
CNAME answer whose normalized owner differs from its normalized target, add
the edge. -/
def buildCnameGraph (answers : List AnswerRecord) : List (List Nat × List (List Nat)) :=
  answers.foldl
    (fun g r =>
      match r.data with
      | AnswerData.other => g
      | AnswerData.cname target =>
        let owner := normalize_domain_str r.name
        let targetNorm := normalize_domain_str target
        if owner = targetNorm then g else graphInsert g owner targetNorm)
    []

/-- BFS state: the harvested related list, the seen set (as a list) and the
pending queue of (domain, depth) pairs. -/
structure WalkState where
  related : List (List Nat)
  seen : List (List Nat)
  queue : List (List Nat × Nat)

/-- The inner candidate loop of the BFS: for each candidate in order, skip the
origin and already-seen domains, otherwise mark seen, harvest, and stop the
whole walk when the relation limit is reached, else enqueue at depth + 1.
Returns the new state and whether the walk was stopped. -/
def walkCandidates (originNorm : List Nat) (depth : Nat) :
    List (List Nat) → WalkState → WalkState × Bool
  | [], st => (st, false)
  | next :: rest, st =>
    if next = originNorm then walkCandidates originNorm depth rest st
    else if next ∈ st.seen then walkCandidates originNorm depth rest st
    else
      let st1 : WalkState :=
        { related := st.related ++ [next], seen := next :: st.seen, queue := st.queue }
      if CNAME_RELATION_LIMIT ≤ st1.related.length then (st1, true)
      else
        walkCandidates originNorm depth rest
          { st1 with queue := st1.queue ++ [(next, depth + 1)] }

/-- The outer BFS loop: pop the queue front; entries at chain depth 8 or more
are not expanded, the candidate list comes from the graph, and the walk stops
early when the relation limit was hit.  fuel bounds the number of pops; the
caller passes more fuel than pops can ever happen (every pop matches an
earlier push, and each push after the first accompanies a fresh seen
insertion of a graph target). -/
def walkQueue (graph : List (List Nat × List (List Nat))) (originNorm : List Nat) :
    Nat → WalkState → List (List Nat)
  | 0, st => st.related
  | fuel + 1, st =>
    match st.queue with
    | [] => st.related
    | (current, depth) :: restQueue =>
      let st1 : WalkState := { st with queue := restQueue }
      if CNAME_CHAIN_LIMIT ≤ depth then walkQueue graph originNorm fuel st1
      else
        match graphGet graph current with
        | none => walkQueue graph originNorm fuel st1
        | some cands =>
          match walkCandidates originNorm depth cands st1 with
          | (st2, true) => st2.related
          | (st2, false) => walkQueue graph originNorm fuel st2

/-- The related-domain list register_cdn_relations_from_message computes for a
message with the given answers and origin. -/
def computeCdnRelated (answers : List AnswerRecord) (origin : List Nat) : List (List Nat) :=
  let originNorm := normalize_domain_str origin
  let graph := buildCnameGraph answers
  walkQueue graph originNorm (answers.length + 2) ⟨[], [originNorm], [(originNorm, 0)]⟩

/-- PrefetchManager::register_cdn_relations_from_message as a transformation
of the CDN relation cache: a no-op when prefetch or CDN prefetch is disabled;
otherwise the computed related list is stored under the relation key, an
empty list invalidating the cached entry instead. -/
def register_cdn_relations_from_message (config : PrefetchConfig)
    (relations : Nat → Option (List (List Nat)))
    (pipeline_id upstream origin : List Nat) (answers : List AnswerRecord) :
    Nat → Option (List (List Nat)) :=
  if ¬(config.enabled ∧ config.cdn_prefetch_enabled) then relations
  else
    let originNorm := normalize_domain_str origin
    let related := computeCdnRelated answers origin
    let key := cdn_relation_key pipeline_id upstream originNorm
    if related.isEmpty then fun k => if k = key then none else relations k
    else fun k => if k = key then some related else relations k

/-- Reachability in the CNAME graph: root reaches x in n edge steps. -/
inductive Reach (graph : List (List Nat × List (List Nat))) (root : List Nat) :
    List Nat → Nat → Prop
  | base : Reach graph root root 0
  | step {x y : List Nat} {n : Nat} :
      Reach graph root x n → y ∈ (graphGet graph x).getD [] → Reach graph root y (n + 1)

/-! ## Helper lemmas -/

theorem toLowerByte_idem (b : Nat) : toLowerByte (toLowerByte b) = toLowerByte b := by
  unfold toLowerByte
  split
  · split
    · omega
    · rfl
  · rfl

theorem foldl_fxWriteU8_lower (q : List Nat) (h1 : Nat) :
    q.foldl (fun h b => fxWriteU8 h (toLowerByte b)) h1
      = (q.map toLowerByte).foldl (fun h b => fxWriteU8 h b) h1 := by
  rw [List.foldl_map]

theorem skipNameAux_bound (packet : List Nat) (pos maxJumps : Nat) :
    skipNameAux packet pos maxJumps = none ∨
    ∃ next, skipNameAux packet pos maxJumps = some next ∧ next ≤ packet.length := by
  induction pos, maxJumps using skipNameAux.induct packet with
  | case1 pos maxJumps hpos len hlen =>
    have h0 : byte packet pos = 0 := hlen
    right
    exact ⟨pos + 1, by unfold skipNameAux; simp [hpos, h0], by omega⟩
  | case2 pos maxJumps hpos len hne hptr hb =>
    have h1 : ¬byte packet pos = 0 := hne
    have h2 : byte packet pos &&& 192 = 192 := hptr
    left; unfold skipNameAux; simp [hpos, h1, h2, hb]
  | case3 pos maxJumps hpos len hne hptr hb hj =>
    have h1 : ¬byte packet pos = 0 := hne
    have h2 : byte packet pos &&& 192 = 192 := hptr
    left; unfold skipNameAux; simp [hpos, h1, h2, hb, hj]
  | case4 pos maxJumps hpos len hne hptr hb hj offset hoff =>
    have h1 : ¬byte packet pos = 0 := hne
    have h2 : byte packet pos &&& 192 = 192 := hptr
    have h3 : packet.length ≤ (byte packet pos &&& 63) * 256 + byte packet (pos + 1) := hoff
    left; unfold skipNameAux; simp [hpos, h1, h2, hb, hj, h3]
  | case5 pos maxJumps hpos len hne hptr hb hj offset hoff ih =>
    have h1 : ¬byte packet pos = 0 := hne
    have h2 : byte packet pos &&& 192 = 192 := hptr
    have h3 : ¬packet.length ≤ (byte packet pos &&& 63) * 256 + byte packet (pos + 1) := hoff
    have ih2 : skipNameAux packet ((byte packet pos &&& 63) * 256 + byte packet (pos + 1))
          (maxJumps - 1) = none ∨
        ∃ next, skipNameAux packet ((byte packet pos &&& 63) * 256 + byte packet (pos + 1))
          (maxJumps - 1) = some next ∧ next ≤ packet.length := ih
    unfold skipNameAux
    simpa [hpos, h1, h2, hb, hj, h3] using ih2
  | case6 pos maxJumps hpos len hne hptr newPos hb =>
    have h1 : ¬byte packet pos = 0 := hne
    have h2 : ¬byte packet pos &&& 192 = 192 := hptr
    have h3 : packet.length < pos + 1 + byte packet pos := hb
    left; unfold skipNameAux; simp [hpos, h1, h2, h3]
  | case7 pos maxJumps hpos len hne hptr newPos hb ih =>
    have h1 : ¬byte packet pos = 0 := hne
    have h2 : ¬byte packet pos &&& 192 = 192 := hptr
    have h3 : ¬packet.length < pos + 1 + byte packet pos := hb
    have ih2 : skipNameAux packet (pos + 1 + byte packet pos) maxJumps = none ∨
        ∃ next, skipNameAux packet (pos + 1 + byte packet pos) maxJumps = some next ∧
          next ≤ packet.length := ih
    unfold skipNameAux
    simpa [hpos, h1, h2, h3] using ih2
  | case8 pos maxJumps hpos =>
    left; unfold skipNameAux; simp [hpos]

theorem scanAnswers_eq_answerTTLs (packet : List Nat) :
    ∀ (count pos acc : Nat),
      scanAnswers packet pos acc count
        = (answerTTLs packet pos count).map
            (fun ttls => ttls.foldl (fun m t => if t < m then t else m) acc) := by
  intro count
  induction count with
  | zero => intro pos acc; simp [scanAnswers, answerTTLs]
  | succ n ih =>
    intro pos acc
    unfold scanAnswers answerTTLs
    cases hskip : skipNameInline packet pos with
    | none => simp
    | some p =>
      by_cases hb : packet.length < p + 10
      · simp [hb]
      · simp only [hb, if_neg, ite_false]
        rw [ih]
        cases hrest : answerTTLs packet (p + 10 + read16 packet (p + 8)) n with
        | none => simp [hrest]
        | some rest => simp [hrest]

theorem foldl_min_if (ts : List Nat) :
    ∀ acc : Nat, ts.foldl (fun m t => if t < m then t else m) acc = ts.foldl min acc := by
  induction ts with
  | nil => intro acc; rfl
  | cons t rest ih =>
    intro acc
    simp only [List.foldl_cons]
    rw [ih]
    congr 1
    rw [Nat.min_def]
    split <;> split <;> omega

/-! ## Claims -/

/-- C1: the cache hash computed by calculate_cache_hash(pipeline_id, qname,
qtype) is invariant under ASCII case changes of qname, because the hash feeds
in the ASCII-lowercased bytes of qname: any two qnames with the same
lowercasing hash identically, and the hash equals the hash of the lowercased
qname.  No TXID enters the computation (calculate_cache_hash has no TXID
input at all). -/
theorem C1_fingerprint_case_insensitive :
    (∀ (pipeline_id qname qname2 : List Nat) (qtype : Nat),
        qname.map toLowerByte = qname2.map toLowerByte →
        calculate_cache_hash pipeline_id qname qtype
          = calculate_cache_hash pipeline_id qname2 qtype) ∧
    (∀ (pipeline_id qname : List Nat) (qtype : Nat),
        calculate_cache_hash pipeline_id qname qtype
          = calculate_cache_hash pipeline_id (qname.map toLowerByte) qtype) := by
  constructor
  · intro p q q2 t hq
    show fxWriteU16 (q.foldl (fun h b => fxWriteU8 h (toLowerByte b)) (fxHashStr 0 p)) t
      = fxWriteU16 (q2.foldl (fun h b => fxWriteU8 h (toLowerByte b)) (fxHashStr 0 p)) t
    rw [foldl_fxWriteU8_lower, foldl_fxWriteU8_lower, hq]
  · intro p q t
    show fxWriteU16 (q.foldl (fun h b => fxWriteU8 h (toLowerByte b)) (fxHashStr 0 p)) t
      = fxWriteU16 ((q.map toLowerByte).foldl (fun h b => fxWriteU8 h (toLowerByte b))
          (fxHashStr 0 p)) t
    rw [foldl_fxWriteU8_lower, foldl_fxWriteU8_lower]
    have hmm : (q.map toLowerByte).map toLowerByte = q.map toLowerByte := by
      simp [List.map_map, Function.comp_def, toLowerByte_idem]
    rw [hmm]

/-- C1 witness: the hash for qname "A" (byte 65) equals the hash for qname
"a" (byte 97) under pipeline "p" (byte 112) and qtype 1. -/
theorem C1_witness :
    ([65] : List Nat).map toLowerByte = ([97] : List Nat).map toLowerByte ∧
    calculate_cache_hash [112] [65] 1 = calculate_cache_hash [112] [97] 1 :=
  ⟨by decide, C1_fingerprint_case_insensitive.1 [112] [65] [97] 1 (by decide)⟩

/-- C2: the UDP send buffer built for a CacheHit is a copy of the cached
bytes E patched with set_transaction_id: when E has at least 2 bytes, the
buffer keeps E's length, its first two bytes are the big-endian encoding of
tx_id, every byte at index 2 and beyond equals the corresponding byte of E,
and set_transaction_id modifies no byte past index 1 on any packet. -/
theorem C2_txid_isolation :
    ∀ (cached : List Nat) (tx_id : Nat), 2 ≤ cached.length →
      (cacheHitSendBuffer cached tx_id).length = cached.length ∧
      (cacheHitSendBuffer cached tx_id)[0]? = some (tx_id / 256 % 256) ∧
      (cacheHitSendBuffer cached tx_id)[1]? = some (tx_id % 256) ∧
      (∀ i, 2 ≤ i → (cacheHitSendBuffer cached tx_id)[i]? = cached[i]?) ∧
      (∀ (packet : List Nat) (i : Nat), 2 ≤ i →
        (set_transaction_id packet tx_id)[i]? = packet[i]?) := by
  intro cached tx_id hlen
  have hframe : ∀ (packet : List Nat) (i : Nat), 2 ≤ i →
      (set_transaction_id packet tx_id)[i]? = packet[i]? := by
    intro packet i hi
    unfold set_transaction_id
    split
    · obtain ⟨j, rfl⟩ : ∃ j, i = j + 2 := ⟨i - 2, by omega⟩
      match packet with
      | p0 :: p1 :: rest => simp [List.set]
    · rfl
  match cached with
  | c0 :: c1 :: rest =>
    refine ⟨?_, ?_, ?_, ?_, hframe⟩
    · simp [cacheHitSendBuffer, set_transaction_id, List.set]
    · simp [cacheHitSendBuffer, set_transaction_id, List.set]
    · simp [cacheHitSendBuffer, set_transaction_id, List.set]
    · intro i hi
      exact hframe (c0 :: c1 :: rest) i hi

/-- C2 witness: patching the 3-byte entry [0, 0, 7] with tx_id 0x1234 gives
first byte 0x12, second byte 0x34 and an untouched byte at index 2. -/
theorem C2_witness :
    2 ≤ ([0, 0, 7] : List Nat).length ∧
    (cacheHitSendBuffer [0, 0, 7] 4660).length = 3 ∧
    (cacheHitSendBuffer [0, 0, 7] 4660)[0]? = some 18 ∧
    (cacheHitSendBuffer [0, 0, 7] 4660)[1]? = some 52 ∧
    (cacheHitSendBuffer [0, 0, 7] 4660)[2]? = ([0, 0, 7] : List Nat)[2]? := by
  have h := C2_txid_isolation [0, 0, 7] 4660 (by decide)
  exact ⟨by decide, h.1, h.2.1, h.2.2.1, h.2.2.2.1 2 (by decide)⟩

/-- C3: parse_quick returns None for every packet shorter than 12 bytes, and
for every packet whose qdcount field (big-endian bytes 4-5) is zero. -/
theorem C3_parse_quick_rejects :
    ∀ (packet : List Nat) (bufSize : Nat),
      (packet.length < 12 → parse_quick packet bufSize = none) ∧
      (read16 packet 4 = 0 → parse_quick packet bufSize = none) := by
  intro packet bufSize
  constructor
  · intro h
    simp [parse_quick, h]
  · intro h
    unfold parse_quick
    split
    · rfl
    · simp [h]

/-- C3 witness: the empty packet (shorter than 12 bytes) and a 12-byte
all-zero packet (qdcount = 0) are both rejected. -/
theorem C3_witness :
    parse_quick [] 255 = none ∧
    parse_quick [0, 0, 0, 0, 0, 0, 0, 0, 0, 0, 0, 0] 255 = none :=
  ⟨(C3_parse_quick_rejects [] 255).1 (by decide),
   (C3_parse_quick_rejects [0, 0, 0, 0, 0, 0, 0, 0, 0, 0, 0, 0] 255).2 (by decide)⟩

/-- C5: for every packet accepted by parse_quick, edns_present is true only
if ancount (bytes 6-7) and nscount (bytes 8-9) are zero, arcount (bytes
10-11) is positive, and the walk of the additional section (scanEdns, which
looks for a record of type 41) finds an OPT record; and whenever ancount or
nscount is nonzero, edns_present is reported false regardless of the
additional records. -/
theorem C5_edns_detection :
    ∀ (packet : List Nat) (bufSize : Nat) (q : QuickQuery),
      parse_quick packet bufSize = some q →
      (q.edns_present = true →
        read16 packet 6 = 0 ∧ read16 packet 8 = 0 ∧ 0 < read16 packet 10 ∧
        ∃ pos qn, parseQNameAux packet bufSize 12 12 false 5 [] = some (pos, qn) ∧
          scanEdns packet (pos + 4) (read16 packet 10) = true) ∧
      ((read16 packet 6 ≠ 0 ∨ read16 packet 8 ≠ 0) → q.edns_present = false) := by
  intro packet bufSize q h
  by_cases h12 : packet.length < 12
  · simp [parse_quick, h12] at h
  by_cases hqd : read16 packet 4 = 0
  · simp [parse_quick, h12, hqd] at h
  rcases hname : parseQNameAux packet bufSize 12 12 false 5 [] with _ | pq
  · simp [parse_quick, h12, hqd, hname] at h
  obtain ⟨pos, qn⟩ := pq
  by_cases hp4 : packet.length < pos + 4
  · simp [parse_quick, h12, hqd, hname, hp4] at h
  simp [parse_quick, h12, hqd, hname, hp4] at h
  subst h
  constructor
  · intro he
    simp only [QuickQuery.edns_present] at he
    by_cases hc : 0 < read16 packet 10 ∧ read16 packet 6 = 0 ∧ read16 packet 8 = 0
    · refine ⟨hc.2.1, hc.2.2, hc.1, pos, qn, rfl, ?_⟩
      simpa [hc] using he
    · simp [hc] at he
  · intro hns
    have hc : ¬(0 < read16 packet 10 ∧ read16 packet 6 = 0 ∧ read16 packet 8 = 0) := by
      rcases hns with hn | hn <;> simp [hn]
    simp [hc]

/-- C5 witness: a standard 28-byte query (ancount = nscount = 0, arcount = 1)
whose additional record is an OPT (type 41) parses with edns_present = true,
and the theorem recovers the OPT scan; a 17-byte query with ancount = 1
reports edns_present = false. -/
theorem C5_witness :
    parse_quick
      [0, 1, 0, 0, 0, 1, 0, 0, 0, 0, 0, 1, 0, 0, 1, 0, 1, 0, 0, 41, 0, 0, 0, 0, 0, 0, 0, 0] 255
      = some ⟨1, [], 1, 1, true⟩ ∧
    scanEdns
      [0, 1, 0, 0, 0, 1, 0, 0, 0, 0, 0, 1, 0, 0, 1, 0, 1, 0, 0, 41, 0, 0, 0, 0, 0, 0, 0, 0]
      17 1 = true ∧
    parse_quick [0, 1, 0, 0, 0, 1, 0, 1, 0, 0, 0, 0, 0, 0, 1, 0, 1] 255
      = some ⟨1, [], 1, 1, false⟩ ∧
    (QuickQuery.mk 1 [] 1 1 false).edns_present = false := by
  have hparse : parse_quick
      [0, 1, 0, 0, 0, 1, 0, 0, 0, 0, 0, 1, 0, 0, 1, 0, 1, 0, 0, 41, 0, 0, 0, 0, 0, 0, 0, 0] 255
      = some ⟨1, [], 1, 1, true⟩ := by
    simp [parse_quick, parseQNameAux, scanEdns, byte, read16]
  have hparse2 : parse_quick [0, 1, 0, 0, 0, 1, 0, 1, 0, 0, 0, 0, 0, 0, 1, 0, 1] 255
      = some ⟨1, [], 1, 1, false⟩ := by
    simp [parse_quick, parseQNameAux, byte, read16]
  have h5 := C5_edns_detection
      [0, 1, 0, 0, 0, 1, 0, 0, 0, 0, 0, 1, 0, 0, 1, 0, 1, 0, 0, 41, 0, 0, 0, 0, 0, 0, 0, 0] 255
      ⟨1, [], 1, 1, true⟩ hparse
  have h5b := C5_edns_detection [0, 1, 0, 0, 0, 1, 0, 1, 0, 0, 0, 0, 0, 0, 1, 0, 1] 255
      ⟨1, [], 1, 1, false⟩ hparse2
  obtain ⟨-, -, -, pos, qn, hname, hscan⟩ := h5.1 rfl
  have heval : parseQNameAux
      [0, 1, 0, 0, 0, 1, 0, 0, 0, 0, 0, 1, 0, 0, 1, 0, 1, 0, 0, 41, 0, 0, 0, 0, 0, 0, 0, 0]
      255 12 12 false 5 [] = some (13, []) := by
    simp [parseQNameAux, byte]
  rw [heval] at hname
  simp only [Option.some.injEq, Prod.mk.injEq] at hname
  obtain ⟨rfl, rfl⟩ := hname
  refine ⟨hparse, ?_, hparse2, h5b.2 (Or.inl (by decide))⟩
  have har : read16
      [0, 1, 0, 0, 0, 1, 0, 0, 0, 0, 0, 1, 0, 0, 1, 0, 1, 0, 0, 41, 0, 0, 0, 0, 0, 0, 0, 0]
      10 = 1 := by decide
  rw [har] at hscan
  simpa using hscan

/-- C4: the domain-name walks of parse_quick and skip_name are total (every
input yields Some or None), a successful skip_name never reports a position
past the packet length (every label read is bounds-checked), skip_name uses
the jump budget MAX_COMPRESSION_JUMPS = 5, and names whose parse needs more
than the permitted pointer jumps — here self-referencing pointer loops —
yield None in both functions rather than looping. -/
theorem C4_bounded_pointer_walk :
    (∀ (packet : List Nat) (pos : Nat),
        skip_name packet pos = none ∨
        ∃ next, skip_name packet pos = some next ∧ next ≤ packet.length) ∧
    (∀ (packet : List Nat) (bufSize : Nat),
        parse_quick packet bufSize = none ∨ ∃ q, parse_quick packet bufSize = some q) ∧
    (∀ (packet : List Nat) (pos : Nat), skip_name packet pos = skipNameAux packet pos 5) ∧
    MAX_COMPRESSION_JUMPS = 5 ∧
    skip_name [192, 0] 0 = none ∧
    parse_quick [0, 0, 0, 0, 0, 1, 0, 0, 0, 0, 0, 0, 192, 12] 255 = none := by
  refine ⟨?_, ?_, fun packet pos => rfl, rfl, ?_, ?_⟩
  · intro packet pos
    exact skipNameAux_bound packet pos MAX_COMPRESSION_JUMPS
  · intro packet bufSize
    cases h : parse_quick packet bufSize with
    | none => exact Or.inl rfl
    | some q => exact Or.inr ⟨q, rfl⟩
  · have hand : (192 : Nat) &&& 63 = 0 := by decide
    have hs : ∀ k : Nat, skipNameAux [192, 0] 0 (k + 2) = skipNameAux [192, 0] 0 (k + 1) := by
      intro k
      conv_lhs => rw [skipNameAux.eq_def]
      simp [byte, hand]
    have h5 := hs 3
    have h4 := hs 2
    have h3 := hs 1
    have h2 := hs 0
    norm_num at h5 h4 h3 h2
    have h1 : skipNameAux [192, 0] 0 1 = none := by
      conv_lhs => rw [skipNameAux.eq_def]
      simp [byte]
    simp [skip_name, MAX_COMPRESSION_JUMPS, h5, h4, h3, h2, h1]
  · have hand : (192 : Nat) &&& 63 = 0 := by decide
    have hp0 : parseQNameAux [0, 0, 0, 0, 0, 1, 0, 0, 0, 0, 0, 0, 192, 12] 255 12 12 false 5 []
        = parseQNameAux [0, 0, 0, 0, 0, 1, 0, 0, 0, 0, 0, 0, 192, 12] 255 12 14 true 4 [] := by
      conv_lhs => rw [parseQNameAux.eq_def]
      simp [byte, hand]
    have hp : ∀ k : Nat,
        parseQNameAux [0, 0, 0, 0, 0, 1, 0, 0, 0, 0, 0, 0, 192, 12] 255 12 14 true (k + 2) []
          = parseQNameAux [0, 0, 0, 0, 0, 1, 0, 0, 0, 0, 0, 0, 192, 12] 255 12 14 true
              (k + 1) [] := by
      intro k
      conv_lhs => rw [parseQNameAux.eq_def]
      simp [byte, hand]
    have hp4 := hp 2
    have hp3 := hp 1
    have hp2 := hp 0
    norm_num at hp4 hp3 hp2
    have hp1 : parseQNameAux [0, 0, 0, 0, 0, 1, 0, 0, 0, 0, 0, 0, 192, 12] 255 12 14 true 1 []
        = none := by
      conv_lhs => rw [parseQNameAux.eq_def]
      simp [byte]
    simp [parse_quick, read16, byte, hp0, hp4, hp3, hp2, hp1]

/-- C6 counterexample: a 23-byte response with ancount = 1 whose single
answer record has TTL 4294967295 (u32::MAX).  The minimum of the TTL fields
is 4294967295, but parse_response_quick reports min_ttl = 0, because the
u32::MAX accumulator is collapsed to 0 after the scan.  So min_ttl is not
always the minimum of the TTL fields of the answer records. -/
theorem C6_counterexample :
    parse_response_quick
        [0, 0, 0, 0, 0, 0, 0, 1, 0, 0, 0, 0, 0, 0, 1, 0, 1, 255, 255, 255, 255, 0, 0]
      = some ⟨0, 0, false⟩ ∧
    skipQuestions
        [0, 0, 0, 0, 0, 0, 0, 1, 0, 0, 0, 0, 0, 0, 1, 0, 1, 255, 255, 255, 255, 0, 0] 12
        (read16 [0, 0, 0, 0, 0, 0, 0, 1, 0, 0, 0, 0, 0, 0, 1, 0, 1, 255, 255, 255, 255, 0, 0] 4)
      = some 12 ∧
    answerTTLs
        [0, 0, 0, 0, 0, 0, 0, 1, 0, 0, 0, 0, 0, 0, 1, 0, 1, 255, 255, 255, 255, 0, 0] 12
        (read16 [0, 0, 0, 0, 0, 0, 0, 1, 0, 0, 0, 0, 0, 0, 1, 0, 1, 255, 255, 255, 255, 0, 0] 6)
      = some [4294967295] ∧
    (0 : Nat) ≠ 4294967295 := by
  have hskip : skipNameInline
      [0, 0, 0, 0, 0, 0, 0, 1, 0, 0, 0, 0, 0, 0, 1, 0, 1, 255, 255, 255, 255, 0, 0] 12
      = some 13 := by
    conv_lhs => rw [skipNameInline.eq_def]
    simp [byte]
  refine ⟨?_, ?_, ?_, by decide⟩
  · simp [parse_response_quick, skipQuestions, scanAnswers, hskip, byte, read16, read32, U32MAX]
  · simp [skipQuestions, byte, read16]
  · simp [answerTTLs, hskip, byte, read16, read32]

/-- C6 (amended): for every packet on which parse_response_quick returns
Some, the packet has at least 12 bytes, rcode is the low 4 bits of byte 3,
the truncated flag is bit 1 of byte 2 (mask 0x02), min_ttl = 0 when
ancount = 0, and otherwise min_ttl is the minimum of the TTL fields of the
ancount answer records except that a minimum of 4294967295 (u32::MAX, the
scan's initial accumulator) is reported as 0. -/
theorem C6_response_parse_amended :
    ∀ (packet : List Nat) (r : QuickResponse),
      parse_response_quick packet = some r →
      12 ≤ packet.length ∧
      r.rcode = byte packet 3 &&& 15 ∧
      (r.truncated = true ↔ byte packet 2 &&& 2 ≠ 0) ∧
      (read16 packet 6 = 0 → r.min_ttl = 0) ∧
      (read16 packet 6 ≠ 0 →
        ∃ pos ttls, skipQuestions packet 12 (read16 packet 4) = some pos ∧
          answerTTLs packet pos (read16 packet 6) = some ttls ∧
          r.min_ttl
            = (if ttls.foldl min U32MAX = U32MAX then 0 else ttls.foldl min U32MAX)) := by
  intro packet r h
  by_cases h12 : packet.length < 12
  · simp [parse_response_quick, h12] at h
  by_cases han : read16 packet 6 = 0
  · simp [parse_response_quick, h12, han] at h
    subst h
    refine ⟨by omega, rfl, by simp, fun _ => rfl, fun hc => absurd han hc⟩
  rcases hq : skipQuestions packet 12 (read16 packet 4) with _ | pos
  · simp [parse_response_quick, h12, han, hq] at h
  rcases hs : scanAnswers packet pos U32MAX (read16 packet 6) with _ | m
  · simp [parse_response_quick, h12, han, hq, hs] at h
  simp [parse_response_quick, h12, han, hq, hs] at h
  subst h
  have hmap := scanAnswers_eq_answerTTLs packet (read16 packet 6) pos U32MAX
  rw [hs] at hmap
  cases httl : answerTTLs packet pos (read16 packet 6) with
  | none =>
    rw [httl] at hmap
    simp at hmap
  | some ttls =>
    rw [httl] at hmap
    simp only [Option.map_some', Option.some.injEq] at hmap
    have hm : m = ttls.foldl min U32MAX := by
      rw [← foldl_min_if]
      exact hmap
    refine ⟨by omega, rfl, by simp, fun hc => absurd hc han, fun _ => ⟨pos, ttls, rfl, httl, ?_⟩⟩
    simp only [hm]

/-- C6 witness: a 23-byte response with flags bytes 0x02 0x03 (TC set,
rcode 3), ancount = 1 and answer TTL 60 parses to rcode 3, truncated true
and min_ttl 60 = the minimum of its TTL list. -/
theorem C6_witness :
    parse_response_quick
        [0, 0, 2, 3, 0, 0, 0, 1, 0, 0, 0, 0, 0, 0, 1, 0, 1, 0, 0, 0, 60, 0, 0]
      = some ⟨3, 60, true⟩ ∧
    read16 [0, 0, 2, 3, 0, 0, 0, 1, 0, 0, 0, 0, 0, 0, 1, 0, 1, 0, 0, 0, 60, 0, 0] 6 ≠ 0 ∧
    ∃ pos ttls,
      skipQuestions [0, 0, 2, 3, 0, 0, 0, 1, 0, 0, 0, 0, 0, 0, 1, 0, 1, 0, 0, 0, 60, 0, 0] 12
          (read16 [0, 0, 2, 3, 0, 0, 0, 1, 0, 0, 0, 0, 0, 0, 1, 0, 1, 0, 0, 0, 60, 0, 0] 4)
        = some pos ∧
      answerTTLs [0, 0, 2, 3, 0, 0, 0, 1, 0, 0, 0, 0, 0, 0, 1, 0, 1, 0, 0, 0, 60, 0, 0] pos
          (read16 [0, 0, 2, 3, 0, 0, 0, 1, 0, 0, 0, 0, 0, 0, 1, 0, 1, 0, 0, 0, 60, 0, 0] 6)
        = some ttls ∧
      (QuickResponse.mk 3 60 true).min_ttl
        = (if ttls.foldl min U32MAX = U32MAX then 0 else ttls.foldl min U32MAX) := by
  have hskip : skipNameInline
      [0, 0, 2, 3, 0, 0, 0, 1, 0, 0, 0, 0, 0, 0, 1, 0, 1, 0, 0, 0, 60, 0, 0] 12
      = some 13 := by
    conv_lhs => rw [skipNameInline.eq_def]
    simp [byte]
  have hand : (3 : Nat) &&& 15 = 3 := by decide
  have hparse : parse_response_quick
      [0, 0, 2, 3, 0, 0, 0, 1, 0, 0, 0, 0, 0, 0, 1, 0, 1, 0, 0, 0, 60, 0, 0]
      = some ⟨3, 60, true⟩ := by
    simp [parse_response_quick, skipQuestions, scanAnswers, hskip, byte, read16, read32, U32MAX,
      hand]
  have h := C6_response_parse_amended
      [0, 0, 2, 3, 0, 0, 0, 1, 0, 0, 0, 0, 0, 0, 1, 0, 1, 0, 0, 0, 60, 0, 0]
      ⟨3, 60, true⟩ hparse
  exact ⟨hparse, by decide, h.2.2.2.2 (by decide)⟩

theorem try_prepare_job_isSome_iff (config : PrefetchConfig) (st : PrefetchState)
    (job : PrefetchJob) (now : Nat) :
    (try_prepare_job config st job now).1.isSome = true ↔
      (config.enabled = true ∧
       (∀ last, st.last_prefetch (job_hash job) = some last →
         config.min_interval ≤ now - last) ∧
       0 < st.available_permits) := by
  unfold try_prepare_job
  by_cases he : config.enabled
  · simp only [he, not_true, if_neg, ite_false, not_false_iff]
    cases hl : st.last_prefetch (job_hash job) with
    | none =>
      by_cases hp : 0 < st.available_permits
      · simp [hl, hp, he]
      · simp [hl, hp, he]
    | some last =>
      by_cases hd : now - last < config.min_interval
      · simp [hl, hd, he]
      · by_cases hp : 0 < st.available_permits
        · simp [hl, hd, hp, he]
          omega
        · simp [hl, hd, hp, he]
  · simp [he]

/-- C8 counterexample: PrefetchManager::new creates the concurrency semaphore
with config.concurrency.max(1) permits, so with concurrency configured as 0
the semaphore has size 1, not size `concurrency` as the claim states. -/
theorem C8_counterexample :
    (PrefetchManager.newState ⟨true, 10, 0, 30, true, true⟩).available_permits = 1 ∧
    (PrefetchManager.newState ⟨true, 10, 0, 30, true, true⟩).available_permits
      ≠ (⟨true, 10, 0, 30, true, true⟩ : PrefetchConfig).concurrency := by
  exact ⟨rfl, by decide⟩

/-- C8 (amended): try_prepare_job returns Some(permit) if and only if
(a) prefetch is enabled, (b) no last-prefetch time is recorded for the job's
hash or now minus the recorded time is at least min_interval, and (c) a slot
is available in the concurrency semaphore — whose size is
max(concurrency, 1), not concurrency itself (5 for the default
concurrency 5); when any condition fails it returns None. -/
theorem C8_try_prepare_job_gate :
    (∀ (config : PrefetchConfig) (st : PrefetchState) (job : PrefetchJob) (now : Nat),
        (try_prepare_job config st job now).1.isSome = true ↔
          (config.enabled = true ∧
           (∀ last, st.last_prefetch (job_hash job) = some last →
             config.min_interval ≤ now - last) ∧
           0 < st.available_permits)) ∧
    (∀ config : PrefetchConfig,
        (PrefetchManager.newState config).available_permits = max config.concurrency 1) ∧
    PrefetchConfig.default.concurrency = 5 ∧
    (PrefetchManager.newState PrefetchConfig.default).available_permits = 5 := by
  exact ⟨try_prepare_job_isSome_iff, fun config => rfl, rfl, rfl⟩

/-- C8 witness: with the default configuration, an empty last-prefetch map
and 5 free permits the gate grants a permit; with zero free permits it does
not. -/
theorem C8_witness :
    (try_prepare_job PrefetchConfig.default ⟨fun _ => none, 5⟩
      ⟨[112], [97], 1, [117]⟩ 100).1.isSome = true ∧
    ¬(try_prepare_job PrefetchConfig.default ⟨fun _ => none, 0⟩
      ⟨[112], [97], 1, [117]⟩ 100).1.isSome = true := by
  constructor
  · exact (C8_try_prepare_job_gate.1 PrefetchConfig.default ⟨fun _ => none, 5⟩
      ⟨[112], [97], 1, [117]⟩ 100).mpr
      ⟨rfl, fun last h => by simp at h, by decide⟩
  · intro hc
    have h := (C8_try_prepare_job_gate.1 PrefetchConfig.default ⟨fun _ => none, 0⟩
      ⟨[112], [97], 1, [117]⟩ 100).mp hc
    exact absurd h.2.2 (by decide)

/-- C10: when try_prepare_job passes the debounce check but fails to acquire
a semaphore slot, it removes the last_prefetch entry for the job's hash
entirely — including any timestamp recorded before the call — so after the
failure the min-interval debounce no longer suppresses the next
try_prepare_job call for the same job (any later call with a free permit
succeeds). -/
theorem C10_failed_acquire_clears_debounce :
    ∀ (config : PrefetchConfig) (st : PrefetchState) (job : PrefetchJob) (now : Nat),
      config.enabled = true →
      (∀ last, st.last_prefetch (job_hash job) = some last →
        config.min_interval ≤ now - last) →
      st.available_permits = 0 →
      (try_prepare_job config st job now).1 = none ∧
      (try_prepare_job config st job now).2.last_prefetch (job_hash job) = none ∧
      (∀ (now2 p : Nat), 0 < p →
        (try_prepare_job config
          ⟨(try_prepare_job config st job now).2.last_prefetch, p⟩ job now2).1.isSome
          = true) := by
  intro config st job now he hdeb hp
  have hresult : try_prepare_job config st job now
      = (none, ⟨fun k => if k = job_hash job then none
          else if k = job_hash job then some now else st.last_prefetch k,
          st.available_permits⟩) := by
    unfold try_prepare_job
    cases hl : st.last_prefetch (job_hash job) with
    | none => simp [he, hl, hp]
    | some last =>
      have := hdeb last hl
      have hnd : ¬(now - last < config.min_interval) := by omega
      simp [he, hl, hnd, hp]
  refine ⟨by rw [hresult], by rw [hresult]; simp, ?_⟩
  intro now2 p hp2
  rw [hresult]
  exact (try_prepare_job_isSome_iff config
      ⟨fun k => if k = job_hash job then none
        else if k = job_hash job then some now else st.last_prefetch k, p⟩ job now2).mpr
    ⟨he, fun last hlast => by simp at hlast, hp2⟩

/-- C10 witness: with the default configuration, a recorded last-prefetch
timestamp 0 for the job's hash, zero free permits and now = 50 (past the
30-second min_interval), the call fails, erases the recorded timestamp, and
a later call at now = 60 with 5 free permits succeeds. -/
theorem C10_witness :
    (try_prepare_job PrefetchConfig.default
      ⟨fun k => if k = job_hash ⟨[112], [97], 1, [117]⟩ then some 0 else none, 0⟩
      ⟨[112], [97], 1, [117]⟩ 50).1 = none ∧
    (try_prepare_job PrefetchConfig.default
      ⟨fun k => if k = job_hash ⟨[112], [97], 1, [117]⟩ then some 0 else none, 0⟩
      ⟨[112], [97], 1, [117]⟩ 50).2.last_prefetch (job_hash ⟨[112], [97], 1, [117]⟩)
      = none ∧
    (try_prepare_job PrefetchConfig.default
      ⟨(try_prepare_job PrefetchConfig.default
          ⟨fun k => if k = job_hash ⟨[112], [97], 1, [117]⟩ then some 0 else none, 0⟩
          ⟨[112], [97], 1, [117]⟩ 50).2.last_prefetch, 5⟩
      ⟨[112], [97], 1, [117]⟩ 60).1.isSome = true := by
  have h := C10_failed_acquire_clears_debounce PrefetchConfig.default
      ⟨fun k => if k = job_hash ⟨[112], [97], 1, [117]⟩ then some 0 else none, 0⟩
      ⟨[112], [97], 1, [117]⟩ 50 rfl
      (by
        intro last hlast
        simp at hlast
        have hmi : PrefetchConfig.default.min_interval = 30 := rfl
        omega)
      rfl
  exact ⟨h.1, h.2.1, h.2.2 60 5 (by decide)⟩

/-- C9: related_jobs produces, when prefetch is enabled, exactly the
AAAA-on-A job followed by the CDN jobs: one AAAA job for the same qname and
upstream iff IPv6-on-IPv4 is enabled and the original qtype is A (and no
such job otherwise), plus, when CDN prefetch is enabled, exactly one job
with the original qtype per domain of the cached CdnRelation list keyed by
(pipeline-id, upstream, origin) — stated for relation lists that do not
contain the qname and have no duplicates, which is what
register_cdn_relations_from_message stores; when prefetch is disabled the
list is empty. -/
theorem C9_related_jobs :
    ∀ (config : PrefetchConfig) (relations : Nat → Option (List (List Nat)))
      (pipeline_id qname : List Nat) (original_qtype : Nat) (upstream : List Nat),
      (config.enabled = false →
        related_jobs config relations pipeline_id qname original_qtype upstream = []) ∧
      (config.enabled = true →
        related_jobs config relations pipeline_id qname original_qtype upstream
          = (if config.ipv6_on_ipv4_enabled ∧ original_qtype = qtypeA then
               [⟨pipeline_id, qname, qtypeAAAA, upstream⟩]
             else [])
            ++ (if config.cdn_prefetch_enabled then
                  ((lookup_cdn_relations relations pipeline_id upstream qname).getD []).map
                    (fun d => ⟨pipeline_id, d, original_qtype, upstream⟩)
                else [])) ∧
      (config.enabled = true →
        qname ∉ (lookup_cdn_relations relations pipeline_id upstream qname).getD [] →
        (related_jobs config relations pipeline_id qname original_qtype upstream).count
            ⟨pipeline_id, qname, qtypeAAAA, upstream⟩
          = (if config.ipv6_on_ipv4_enabled ∧ original_qtype = qtypeA then 1 else 0)) ∧
      (config.enabled = true → config.cdn_prefetch_enabled = true →
        ((lookup_cdn_relations relations pipeline_id upstream qname).getD []).Nodup →
        qname ∉ (lookup_cdn_relations relations pipeline_id upstream qname).getD [] →
        ∀ d ∈ (lookup_cdn_relations relations pipeline_id upstream qname).getD [],
          (related_jobs config relations pipeline_id qname original_qtype upstream).count
              ⟨pipeline_id, d, original_qtype, upstream⟩ = 1) := by
  intro config relations pipeline_id qname original_qtype upstream
  have hchar : config.enabled = true →
      related_jobs config relations pipeline_id qname original_qtype upstream
        = (if config.ipv6_on_ipv4_enabled ∧ original_qtype = qtypeA then
             [⟨pipeline_id, qname, qtypeAAAA, upstream⟩]
           else [])
          ++ (if config.cdn_prefetch_enabled then
                ((lookup_cdn_relations relations pipeline_id upstream qname).getD []).map
                  (fun d => ⟨pipeline_id, d, original_qtype, upstream⟩)
              else []) := by
    intro he
    cases hrel : lookup_cdn_relations relations pipeline_id upstream qname with
    | none => simp [related_jobs, he, hrel]
    | some rel => simp [related_jobs, he, hrel]
  refine ⟨fun he => by simp [related_jobs, he], hchar, ?_, ?_⟩
  · intro he hq
    rw [hchar he]
    rw [List.count_append]
    have hcdn : (if config.cdn_prefetch_enabled then
          ((lookup_cdn_relations relations pipeline_id upstream qname).getD []).map
            (fun d => (⟨pipeline_id, d, original_qtype, upstream⟩ : PrefetchJob))
        else []).count ⟨pipeline_id, qname, qtypeAAAA, upstream⟩ = 0 := by
      apply List.count_eq_zero_of_not_mem
      intro hmem
      rcases (by split at hmem <;> simp_all :
          ∃ d, d ∈ (lookup_cdn_relations relations pipeline_id upstream qname).getD [] ∧
            (⟨pipeline_id, d, original_qtype, upstream⟩ : PrefetchJob)
              = ⟨pipeline_id, qname, qtypeAAAA, upstream⟩) with ⟨d, hd, heq⟩
      have : d = qname := by
        injection heq
      exact hq (this ▸ hd)
    rw [hcdn]
    split
    · simp [List.count_singleton]
    · simp
  · intro he hcdn hnodup hq d hd
    rw [hchar he]
    rw [List.count_append]
    have haaaa : (if config.ipv6_on_ipv4_enabled ∧ original_qtype = qtypeA then
          [(⟨pipeline_id, qname, qtypeAAAA, upstream⟩ : PrefetchJob)]
        else []).count ⟨pipeline_id, d, original_qtype, upstream⟩ = 0 := by
      apply List.count_eq_zero_of_not_mem
      intro hmem
      split at hmem
      · simp at hmem
        exact hq (hmem.1 ▸ hd)
      · simp at hmem
    rw [haaaa, if_pos hcdn]
    have hinj : Function.Injective
        (fun d => (⟨pipeline_id, d, original_qtype, upstream⟩ : PrefetchJob)) := by
      intro a b hab
      have h2 := congrArg PrefetchJob.qname hab
      simpa using h2
    rw [List.count_map_of_injective _ _ hinj]
    rw [List.count_eq_one_of_mem hnodup hd]

/-- C9 witness: with the default configuration, a relation cache holding
["b", "c"] (bytes [98], [99]) for the key of pipeline "p", upstream "u",
origin "a", a query for "a" with qtype A yields exactly the AAAA job for "a"
followed by one A job for each of "b" and "c". -/
theorem C9_witness :
    related_jobs PrefetchConfig.default
        (fun k => if k = cdn_relation_key [112] [117] [97] then some [[98], [99]] else none)
        [112] [97] 1 [117]
      = [⟨[112], [97], 28, [117]⟩, ⟨[112], [98], 1, [117]⟩, ⟨[112], [99], 1, [117]⟩] ∧
    (related_jobs PrefetchConfig.default
        (fun k => if k = cdn_relation_key [112] [117] [97] then some [[98], [99]] else none)
        [112] [97] 1 [117]).count ⟨[112], [97], 28, [117]⟩ = 1 ∧
    (related_jobs PrefetchConfig.default
        (fun k => if k = cdn_relation_key [112] [117] [97] then some [[98], [99]] else none)
        [112] [97] 1 [117]).count ⟨[112], [98], 1, [117]⟩ = 1 := by
  have hlook : lookup_cdn_relations
      (fun k => if k = cdn_relation_key [112] [117] [97] then some [[98], [99]] else none)
      [112] [117] [97] = some [[98], [99]] := by
    simp [lookup_cdn_relations]
  have h := C9_related_jobs PrefetchConfig.default
      (fun k => if k = cdn_relation_key [112] [117] [97] then some [[98], [99]] else none)
      [112] [97] 1 [117]
  refine ⟨?_, ?_, ?_⟩
  · rw [h.2.1 rfl]
    rw [hlook]
    simp [qtypeA, qtypeAAAA, PrefetchConfig.default]
  · have := h.2.2.1 rfl (by rw [hlook]; decide)
    simpa [qtypeA, qtypeAAAA, PrefetchConfig.default] using this
  · have := h.2.2.2 rfl rfl (by rw [hlook]; decide) (by rw [hlook]; decide) [98]
      (by rw [hlook]; decide)
    exact this

/-- Invariant of the BFS walk: the harvested list has no duplicates, never
holds the origin, every harvested domain is marked seen and is reachable
within the chain limit, and every queued entry is reachable at its recorded
depth, itself within the chain limit. -/
def WalkInv (graph : List (List Nat × List (List Nat))) (originNorm : List Nat)
    (st : WalkState) : Prop :=
  st.related.Nodup ∧
  originNorm ∉ st.related ∧
  (∀ d ∈ st.related, d ∈ st.seen) ∧
  (∀ d ∈ st.related, ∃ n, n ≤ CNAME_CHAIN_LIMIT ∧ Reach graph originNorm d n) ∧
  (∀ p ∈ st.queue, Reach graph originNorm p.1 p.2 ∧ p.2 ≤ CNAME_CHAIN_LIMIT)

theorem walkCandidates_inv (graph : List (List Nat × List (List Nat)))
    (originNorm : List Nat) (depth : Nat) (hdep : depth + 1 ≤ CNAME_CHAIN_LIMIT) :
    ∀ (cands : List (List Nat)) (st : WalkState),
      (∀ next ∈ cands, Reach graph originNorm next (depth + 1)) →
      WalkInv graph originNorm st →
      st.related.length < CNAME_RELATION_LIMIT →
      WalkInv graph originNorm (walkCandidates originNorm depth cands st).1 ∧
      (walkCandidates originNorm depth cands st).1.related.length ≤ CNAME_RELATION_LIMIT ∧
      ((walkCandidates originNorm depth cands st).2 = false →
        (walkCandidates originNorm depth cands st).1.related.length
          < CNAME_RELATION_LIMIT) := by
  intro cands
  induction cands with
  | nil =>
    intro st hcand hinv hlen
    simp only [walkCandidates]
    exact ⟨hinv, by omega, fun _ => hlen⟩
  | cons next rest ih =>
    intro st hcand hinv hlen
    obtain ⟨hnd, hno, hsub, hreach, hqueue⟩ := hinv
    by_cases ho : next = originNorm
    · have heq : walkCandidates originNorm depth (next :: rest) st
          = walkCandidates originNorm depth rest st := by
        simp [walkCandidates, ho]
      rw [heq]
      exact ih st (fun n hn => hcand n (List.mem_cons_of_mem _ hn))
        ⟨hnd, hno, hsub, hreach, hqueue⟩ hlen
    by_cases hseen : next ∈ st.seen
    · have heq : walkCandidates originNorm depth (next :: rest) st
          = walkCandidates originNorm depth rest st := by
        simp [walkCandidates, ho, hseen]
      rw [heq]
      exact ih st (fun n hn => hcand n (List.mem_cons_of_mem _ hn))
        ⟨hnd, hno, hsub, hreach, hqueue⟩ hlen
    have hnotrel : next ∉ st.related := fun hmem => hseen (hsub next hmem)
    have hnd1 : (st.related ++ [next]).Nodup := by
      rw [List.nodup_append]
      exact ⟨hnd, List.nodup_singleton next,
        fun a ha hb => by simp at hb; exact hnotrel (hb ▸ ha)⟩
    have hno1 : originNorm ∉ st.related ++ [next] := by
      intro hmem
      rcases List.mem_append.mp hmem with hmem | hmem
      · exact hno hmem
      · simp at hmem
        exact ho hmem.symm
    have hsub1 : ∀ d ∈ st.related ++ [next], d ∈ next :: st.seen := by
      intro d hd
      rcases List.mem_append.mp hd with hd | hd
      · exact List.mem_cons_of_mem _ (hsub d hd)
      · simp at hd
        simp [hd]
    have hreach1 : ∀ d ∈ st.related ++ [next],
        ∃ n, n ≤ CNAME_CHAIN_LIMIT ∧ Reach graph originNorm d n := by
      intro d hd
      rcases List.mem_append.mp hd with hd | hd
      · exact hreach d hd
      · simp at hd
        exact ⟨depth + 1, hdep, hd ▸ hcand next (List.mem_cons_self _ _)⟩
    by_cases hlim : CNAME_RELATION_LIMIT ≤ st.related.length + 1
    · have heq : walkCandidates originNorm depth (next :: rest) st
          = (⟨st.related ++ [next], next :: st.seen, st.queue⟩, true) := by
        simp [walkCandidates, ho, hseen, hlim]
      rw [heq]
      refine ⟨⟨hnd1, hno1, hsub1, hreach1, hqueue⟩, ?_, by simp⟩
      simp only [List.length_append, List.length_singleton]
      omega
    · have heq : walkCandidates originNorm depth (next :: rest) st
          = walkCandidates originNorm depth rest
              ⟨st.related ++ [next], next :: st.seen,
                st.queue ++ [(next, depth + 1)]⟩ := by
        simp [walkCandidates, ho, hseen, hlim]
      rw [heq]
      refine ih _ (fun n hn => hcand n (List.mem_cons_of_mem _ hn))
        ⟨hnd1, hno1, hsub1, hreach1, ?_⟩ ?_
      · intro p hp
        rcases List.mem_append.mp hp with hp | hp
        · exact hqueue p hp
        · simp at hp
          subst hp
          exact ⟨hcand next (List.mem_cons_self _ _), hdep⟩
      · simp only [List.length_append, List.length_singleton]
        omega

theorem walkQueue_inv (graph : List (List Nat × List (List Nat)))
    (originNorm : List Nat) :
    ∀ (fuel : Nat) (st : WalkState),
      WalkInv graph originNorm st →
      st.related.length < CNAME_RELATION_LIMIT →
      ((walkQueue graph originNorm fuel st).Nodup ∧
       originNorm ∉ walkQueue graph originNorm fuel st ∧
       (walkQueue graph originNorm fuel st).length ≤ CNAME_RELATION_LIMIT ∧
       (∀ d ∈ walkQueue graph originNorm fuel st,
         ∃ n, n ≤ CNAME_CHAIN_LIMIT ∧ Reach graph originNorm d n)) := by
  intro fuel
  induction fuel with
  | zero =>
    intro st hinv hlen
    obtain ⟨hnd, hno, hsub, hreach, hqueue⟩ := hinv
    simp only [walkQueue]
    exact ⟨hnd, hno, by omega, hreach⟩
  | succ fuel ih =>
    intro st hinv hlen
    obtain ⟨hnd, hno, hsub, hreach, hqueue⟩ := hinv
    cases hq : st.queue with
    | nil =>
      have heq : walkQueue graph originNorm (fuel + 1) st = st.related := by
        simp [walkQueue, hq]
      rw [heq]
      exact ⟨hnd, hno, by omega, hreach⟩
    | cons head restQueue =>
      obtain ⟨current, depth⟩ := head
      have hinv1 : WalkInv graph originNorm ⟨st.related, st.seen, restQueue⟩ :=
        ⟨hnd, hno, hsub, hreach, fun p hp => hqueue p (by rw [hq]; exact List.mem_cons_of_mem _ hp)⟩
      by_cases hd : CNAME_CHAIN_LIMIT ≤ depth
      · have heq : walkQueue graph originNorm (fuel + 1) st
            = walkQueue graph originNorm fuel ⟨st.related, st.seen, restQueue⟩ := by
          simp [walkQueue, hq, hd]
        rw [heq]
        exact ih _ hinv1 hlen
      cases hg : graphGet graph current with
      | none =>
        have heq : walkQueue graph originNorm (fuel + 1) st
            = walkQueue graph originNorm fuel ⟨st.related, st.seen, restQueue⟩ := by
          simp [walkQueue, hq, hd, hg]
        rw [heq]
        exact ih _ hinv1 hlen
      | some cands =>
        have hcur : Reach graph originNorm current depth ∧ depth ≤ CNAME_CHAIN_LIMIT :=
          hqueue (current, depth) (by rw [hq]; exact List.mem_cons_self _ _)
        have hdep1 : depth + 1 ≤ CNAME_CHAIN_LIMIT := by omega
        have hcand : ∀ next ∈ cands, Reach graph originNorm next (depth + 1) := by
          intro next hn
          exact Reach.step hcur.1 (by rw [hg]; simpa using hn)
        obtain ⟨hinv2, hle2, hlt2⟩ := walkCandidates_inv graph originNorm depth hdep1 cands
          ⟨st.related, st.seen, restQueue⟩ hcand hinv1 hlen
        rcases hw : walkCandidates originNorm depth cands
            ⟨st.related, st.seen, restQueue⟩ with ⟨st2, stop⟩
        rw [hw] at hinv2 hle2 hlt2
        obtain ⟨hnd2, hno2, hsub2, hreach2, hqueue2⟩ := hinv2
        cases stop with
        | true =>
          have heq : walkQueue graph originNorm (fuel + 1) st = st2.related := by
            simp [walkQueue, hq, hd, hg, hw]
          rw [heq]
          exact ⟨hnd2, hno2, hle2, hreach2⟩
        | false =>
          have heq : walkQueue graph originNorm (fuel + 1) st
              = walkQueue graph originNorm fuel st2 := by
            simp [walkQueue, hq, hd, hg, hw]
          rw [heq]
          exact ih st2 ⟨hnd2, hno2, hsub2, hreach2, hqueue2⟩ (hlt2 rfl)

/-- C7: the related-domain list computed by
register_cdn_relations_from_message via breadth-first traversal of the CNAME
records never contains the (normalized) origin, has no duplicates, has
length at most CNAME_RELATION_LIMIT = 32, only contains domains reachable
from the origin within chain depth CNAME_CHAIN_LIMIT = 8, and when the
computed list is empty the cached relation under the (pipeline, upstream,
origin) key is invalidated rather than overwritten, a nonempty list being
stored as-is. -/
theorem C7_cdn_relation_walk :
    ∀ (config : PrefetchConfig) (relations : Nat → Option (List (List Nat)))
      (pipeline_id upstream origin : List Nat) (answers : List AnswerRecord),
      normalize_domain_str origin ∉ computeCdnRelated answers origin ∧
      (computeCdnRelated answers origin).Nodup ∧
      (computeCdnRelated answers origin).length ≤ CNAME_RELATION_LIMIT ∧
      CNAME_RELATION_LIMIT = 32 ∧ CNAME_CHAIN_LIMIT = 8 ∧
      (∀ d ∈ computeCdnRelated answers origin,
        ∃ n, n ≤ CNAME_CHAIN_LIMIT ∧
          Reach (buildCnameGraph answers) (normalize_domain_str origin) d n) ∧
      (config.enabled = true → config.cdn_prefetch_enabled = true →
        ((computeCdnRelated answers origin = [] →
           register_cdn_relations_from_message config relations pipeline_id upstream origin
             answers
             (cdn_relation_key pipeline_id upstream (normalize_domain_str origin)) = none) ∧
         (computeCdnRelated answers origin ≠ [] →
           register_cdn_relations_from_message config relations pipeline_id upstream origin
             answers
             (cdn_relation_key pipeline_id upstream (normalize_domain_str origin))
             = some (computeCdnRelated answers origin)))) := by
  intro config relations pipeline_id upstream origin answers
  have hinv0 : WalkInv (buildCnameGraph answers) (normalize_domain_str origin)
      ⟨[], [normalize_domain_str origin], [(normalize_domain_str origin, 0)]⟩ := by
    refine ⟨List.nodup_nil, by simp, by simp, by simp, ?_⟩
    intro p hp
    simp at hp
    subst hp
    exact ⟨Reach.base, by simp [CNAME_CHAIN_LIMIT]⟩
  have hmain := walkQueue_inv (buildCnameGraph answers) (normalize_domain_str origin)
    (answers.length + 2) ⟨[], [normalize_domain_str origin], [(normalize_domain_str origin, 0)]⟩
    hinv0 (by simp [CNAME_RELATION_LIMIT])
  have hcompute : computeCdnRelated answers origin
      = walkQueue (buildCnameGraph answers) (normalize_domain_str origin)
          (answers.length + 2)
          ⟨[], [normalize_domain_str origin], [(normalize_domain_str origin, 0)]⟩ := rfl
  rw [← hcompute] at hmain
  obtain ⟨hnd, hno, hle, hreach⟩ := hmain
  refine ⟨hno, hnd, hle, rfl, rfl, hreach, ?_⟩
  intro he hc
  constructor
  · intro hempty
    unfold register_cdn_relations_from_message
    simp [he, hc, hempty]
  · intro hne
    unfold register_cdn_relations_from_message
    have hne2 : (computeCdnRelated answers origin).isEmpty = false := by
      cases hcc : computeCdnRelated answers origin with
      | nil => exact absurd hcc hne
      | cons a l => simp
    simp [he, hc, hne2]

/-- C7 witness: for answers CNAME a -> b, CNAME b -> c and origin "a", the
computed relation list is exactly ["b", "c"]; registering it over an empty
cache stores it under the relation key, and registering an empty CNAME chain
over a cache that holds ["d"] invalidates that entry. -/
theorem C7_witness :
    computeCdnRelated
        [⟨[97], AnswerData.cname [98]⟩, ⟨[98], AnswerData.cname [99]⟩] [97]
      = [[98], [99]] ∧
    register_cdn_relations_from_message PrefetchConfig.default (fun _ => none)
        [112] [117] [97]
        [⟨[97], AnswerData.cname [98]⟩, ⟨[98], AnswerData.cname [99]⟩]
        (cdn_relation_key [112] [117] (normalize_domain_str [97]))
      = some [[98], [99]] ∧
    register_cdn_relations_from_message PrefetchConfig.default (fun _ => some [[100]])
        [112] [117] [97] []
        (cdn_relation_key [112] [117] (normalize_domain_str [97]))
      = none ∧
    normalize_domain_str [97] ∉ computeCdnRelated
        [⟨[97], AnswerData.cname [98]⟩, ⟨[98], AnswerData.cname [99]⟩] [97] := by
  have hval : computeCdnRelated
      [⟨[97], AnswerData.cname [98]⟩, ⟨[98], AnswerData.cname [99]⟩] [97]
      = [[98], [99]] := by decide
  have h1 := C7_cdn_relation_walk PrefetchConfig.default (fun _ => none) [112] [117] [97]
    [⟨[97], AnswerData.cname [98]⟩, ⟨[98], AnswerData.cname [99]⟩]
  have h2 := C7_cdn_relation_walk PrefetchConfig.default (fun _ => some [[100]])
    [112] [117] [97] []
  refine ⟨hval, ?_, ?_, h1.1⟩
  · have := (h1.2.2.2.2.2.2 rfl rfl).2 (by rw [hval]; decide)
    rw [hval] at this
    exact this
  · exact (h2.2.2.2.2.2.2 rfl rfl).1 (by decide)

end KixDNS
